import Mathlib

/-!
Verification of the wav-util / wav-look WAV container tools.

The two C files share one data model: a 44-byte header made of a RIFF
chunk, an fmt chunk and a data chunk, a validator (`verify_file`) that
counts tag mismatches, a streaming block copier (`write_data`) and a
silence transform (`silence_section`).  Bytes are modelled as `Nat`
values (well-formedness predicates bound them by 256 where it matters),
files as `List Nat`, and the fallible stream writes as acceptance
functions giving how many bytes the stream takes on each call.
-/

set_option maxHeartbeats 1000000
set_option maxRecDepth 2000
set_option linter.unusedVariables false

/-- ID_LEN from the source: chunk IDs are 4 bytes wide. -/
def ID_LEN : Nat := 4

/-- BLOCK from the source: how much data is read in at a time. -/
def BLOCK : Nat := 4096

/-- BITS_PER_BYTE from the source. -/
def BITS_PER_BYTE : Nat := 8

/-- D_START from wav-look.c, the start divisor of the silence window. -/
def D_START : Nat := 100

/-- D_END from wav-look.c, the end divisor of the silence window. -/
def D_END : Nat := 30

/-- A 4-byte chunk identifier (char[ID_LEN] in the source), one `Nat`
per byte. -/
@[ext]
structure Tag where
  b0 : Nat
  b1 : Nat
  b2 : Nat
  b3 : Nat
deriving DecidableEq

/-- "RIFF" as bytes. -/
def RIFF_ID : Tag := ⟨82, 73, 70, 70⟩

/-- "WAVE" as bytes. -/
def RIFF_FMT : Tag := ⟨87, 65, 86, 69⟩

/-- "fmt " (trailing space) as bytes. -/
def FMT_ID : Tag := ⟨102, 109, 116, 32⟩

/-- "data" as bytes. -/
def DATA_ID : Tag := ⟨100, 97, 116, 97⟩

/-- struct riff_chunk from the source. -/
structure riff_chunk where
  chunkID : Tag
  chunkSize : Nat
  format : Tag
deriving DecidableEq

/-- struct fmt_chunk from the source. -/
structure fmt_chunk where
  chunkID : Tag
  chunkSize : Nat
  audioFormat : Nat
  numChannels : Nat
  sampleRate : Nat
  byteRate : Nat
  blockAlign : Nat
  bitsPerSample : Nat
deriving DecidableEq

/-- struct data_chunk from the source. -/
structure data_chunk where
  chunkID : Tag
  chunkSize : Nat
deriving DecidableEq

/-- struct wav_header_t from the source: the three chunks in order. -/
structure wav_header where
  r : riff_chunk
  f : fmt_chunk
  d : data_chunk
deriving DecidableEq

/-- C strncmp(s, t, 4) on two 4-byte tags: compare byte by byte, stop at
the first difference (returning its signed difference) or at a shared
NUL byte. -/
def strncmp4 (s t : Tag) : Int :=
  if s.b0 ≠ t.b0 then (s.b0 : Int) - t.b0
  else if s.b0 = 0 then 0
  else if s.b1 ≠ t.b1 then (s.b1 : Int) - t.b1
  else if s.b1 = 0 then 0
  else if s.b2 ≠ t.b2 then (s.b2 : Int) - t.b2
  else if s.b2 = 0 then 0
  else if s.b3 ≠ t.b3 then (s.b3 : Int) - t.b3
  else 0

/-- verify_file from the source: checks the RIFF id, the RIFF format,
the fmt id and the data id with strncmp, incrementing an error counter
for each mismatch, and returns the count. -/
def verify_file (input : wav_header) : Nat :=
  (if strncmp4 input.r.chunkID RIFF_ID = 0 then 0 else 1)
    + (if strncmp4 input.r.format RIFF_FMT = 0 then 0 else 1)
    + (if strncmp4 input.f.chunkID FMT_ID = 0 then 0 else 1)
    + (if strncmp4 input.d.chunkID DATA_ID = 0 then 0 else 1)

/-- Against a reference tag with no NUL byte, strncmp4 returns 0 exactly
on a byte-for-byte match. -/
theorem strncmp4_eq_zero_iff (s t : Tag) (h0 : t.b0 ≠ 0) (h1 : t.b1 ≠ 0)
    (h2 : t.b2 ≠ 0) (h3 : t.b3 ≠ 0) : strncmp4 s t = 0 ↔ s = t := by
  unfold strncmp4
  split_ifs <;> simp_all [Tag.ext_iff] <;> omega

/-- Claim C3: for every header in which all four chunk identifiers and
format tags differ from their expected 4-byte literals, verify_file
returns exactly 4 violations: the checks are independent, with no
short-circuiting on the first bad tag. -/
theorem verify_file_all_bad (h : wav_header)
    (hr : h.r.chunkID ≠ RIFF_ID) (hf : h.r.format ≠ RIFF_FMT)
    (hm : h.f.chunkID ≠ FMT_ID) (hd : h.d.chunkID ≠ DATA_ID) :
    verify_file h = 4 := by
  have e1 : ¬ strncmp4 h.r.chunkID RIFF_ID = 0 := by
    rw [strncmp4_eq_zero_iff _ _ (by decide) (by decide) (by decide) (by decide)]
    exact hr
  have e2 : ¬ strncmp4 h.r.format RIFF_FMT = 0 := by
    rw [strncmp4_eq_zero_iff _ _ (by decide) (by decide) (by decide) (by decide)]
    exact hf
  have e3 : ¬ strncmp4 h.f.chunkID FMT_ID = 0 := by
    rw [strncmp4_eq_zero_iff _ _ (by decide) (by decide) (by decide) (by decide)]
    exact hm
  have e4 : ¬ strncmp4 h.d.chunkID DATA_ID = 0 := by
    rw [strncmp4_eq_zero_iff _ _ (by decide) (by decide) (by decide) (by decide)]
    exact hd
  simp [verify_file, e1, e2, e3, e4]

/-- Witness for C3: a concrete header with all four tags wrong yields
exactly 4 violations. -/
theorem verify_file_all_bad_witness :
    verify_file ⟨⟨⟨1, 2, 3, 4⟩, 0, ⟨1, 2, 3, 4⟩⟩,
      ⟨⟨1, 2, 3, 4⟩, 16, 1, 2, 44100, 176400, 4, 16⟩,
      ⟨⟨1, 2, 3, 4⟩, 1000⟩⟩ = 4 :=
  verify_file_all_bad _ (by decide) (by decide) (by decide) (by decide)

/-- Claim C4: a header whose four identifier fields equal the literal
tags "RIFF", "WAVE", "fmt " and "data" passes verify_file with 0
violations, whatever the numeric fields hold. -/
theorem verify_file_good_tags (rs fs af nc sr br ba bps ds : Nat) :
    verify_file ⟨⟨RIFF_ID, rs, RIFF_FMT⟩,
      ⟨FMT_ID, fs, af, nc, sr, br, ba, bps⟩,
      ⟨DATA_ID, ds⟩⟩ = 0 := by
  simp [verify_file, RIFF_ID, RIFF_FMT, FMT_ID, DATA_ID, strncmp4]

/-- Serialize one tag: its four bytes in order (each reduced mod 256, a
byte in memory can hold no more). -/
def tagBytes (t : Tag) : List Nat :=
  [t.b0 % 256, t.b1 % 256, t.b2 % 256, t.b3 % 256]

/-- A 16-bit unsigned value laid out little-endian, as two bytes. -/
def u16le (n : Nat) : List Nat := [n % 256, n / 256 % 256]

/-- A 32-bit unsigned value laid out little-endian, as four bytes. -/
def u32le (n : Nat) : List Nat :=
  [n % 256, n / 256 % 256, n / 65536 % 256, n / 16777216 % 256]

/-- Read back a little-endian 16-bit value from two bytes. -/
def fromLe16 (a b : Nat) : Nat := a + 256 * b

/-- Read back a little-endian 32-bit value from four bytes. -/
def fromLe32 (a b c d : Nat) : Nat :=
  a + 256 * b + 65536 * c + 16777216 * d

/-- The header bytes written by fwrite(&header, HEADER_SIZE, 1, f): the
fields of the three chunks in declaration order, numeric fields
little-endian, with no padding. -/
def encode (h : wav_header) : List Nat :=
  tagBytes h.r.chunkID ++ u32le h.r.chunkSize ++ tagBytes h.r.format
    ++ tagBytes h.f.chunkID ++ u32le h.f.chunkSize
    ++ u16le h.f.audioFormat ++ u16le h.f.numChannels
    ++ u32le h.f.sampleRate ++ u32le h.f.byteRate
    ++ u16le h.f.blockAlign ++ u16le h.f.bitsPerSample
    ++ tagBytes h.d.chunkID ++ u32le h.d.chunkSize

/-- The header read by fread(&header, HEADER_SIZE, 1, f): consumes
exactly the fixed header length, mapping the 44 bytes back onto the
fields; anything shorter (or longer) is a truncated read, `none`. -/
def decode (bs : List Nat) : Option wav_header :=
  match bs with
  | r0 :: r1 :: r2 :: r3 :: s0 :: s1 :: s2 :: s3 :: w0 :: w1 :: w2 :: w3 ::
    f0 :: f1 :: f2 :: f3 :: c0 :: c1 :: c2 :: c3 ::
    a0 :: a1 :: n0 :: n1 :: sr0 :: sr1 :: sr2 :: sr3 :: br0 :: br1 :: br2 :: br3 ::
    ba0 :: ba1 :: bp0 :: bp1 ::
    d0 :: d1 :: d2 :: d3 :: ds0 :: ds1 :: ds2 :: ds3 :: [] =>
      some ⟨⟨⟨r0, r1, r2, r3⟩, fromLe32 s0 s1 s2 s3, ⟨w0, w1, w2, w3⟩⟩,
        ⟨⟨f0, f1, f2, f3⟩, fromLe32 c0 c1 c2 c3, fromLe16 a0 a1,
          fromLe16 n0 n1, fromLe32 sr0 sr1 sr2 sr3, fromLe32 br0 br1 br2 br3,
          fromLe16 ba0 ba1, fromLe16 bp0 bp1⟩,
        ⟨⟨d0, d1, d2, d3⟩, fromLe32 ds0 ds1 ds2 ds3⟩⟩
  | _ => none

/-- A tag actually held in a char[4]: each byte below 256. -/
def TagWF (t : Tag) : Prop :=
  t.b0 < 256 ∧ t.b1 < 256 ∧ t.b2 < 256 ∧ t.b3 < 256

instance (t : Tag) : Decidable (TagWF t) := by
  unfold TagWF; infer_instance

/-- A header actually representable in the C struct: tags are bytes,
uint32_t fields below 2^32, uint16_t fields below 2^16. -/
def WF (h : wav_header) : Prop :=
  TagWF h.r.chunkID ∧ h.r.chunkSize < 4294967296 ∧ TagWF h.r.format
    ∧ TagWF h.f.chunkID ∧ h.f.chunkSize < 4294967296
    ∧ h.f.audioFormat < 65536 ∧ h.f.numChannels < 65536
    ∧ h.f.sampleRate < 4294967296 ∧ h.f.byteRate < 4294967296
    ∧ h.f.blockAlign < 65536 ∧ h.f.bitsPerSample < 65536
    ∧ TagWF h.d.chunkID ∧ h.d.chunkSize < 4294967296

instance (h : wav_header) : Decidable (WF h) := by
  unfold WF; infer_instance

/-- Claim C2: decoding the bytes produced by encoding a representable
header yields that header again, byte for byte. -/
theorem decode_encode (h : wav_header) (hw : WF h) :
    decode (encode h) = some h := by
  obtain ⟨⟨⟨r0, r1, r2, r3⟩, rs, ⟨w0, w1, w2, w3⟩⟩,
    ⟨⟨f0, f1, f2, f3⟩, fs, af, nc, sr, br, ba, bp⟩,
    ⟨⟨d0, d1, d2, d3⟩, ds⟩⟩ := h
  simp only [WF, TagWF] at hw
  obtain ⟨⟨hr0, hr1, hr2, hr3⟩, hrs, ⟨hw0, hw1, hw2, hw3⟩,
    ⟨hf0, hf1, hf2, hf3⟩, hfs, haf, hnc, hsr, hbr, hba, hbp,
    ⟨hd0, hd1, hd2, hd3⟩, hds⟩ := hw
  simp only [encode, tagBytes, u32le, u16le, List.cons_append, List.nil_append,
    decode, fromLe32, fromLe16, Option.some.injEq,
    wav_header.mk.injEq, riff_chunk.mk.injEq, fmt_chunk.mk.injEq,
    data_chunk.mk.injEq, Tag.mk.injEq]
  refine ⟨⟨⟨?_, ?_, ?_, ?_⟩, ?_, ?_, ?_, ?_, ?_⟩,
    ⟨⟨?_, ?_, ?_, ?_⟩, ?_, ?_, ?_, ?_, ?_, ?_, ?_⟩,
    ⟨?_, ?_, ?_, ?_⟩, ?_⟩ <;> omega

/-- Witness for C2: the round trip on a concrete well-formed header. -/
theorem decode_encode_witness :
    decode (encode ⟨⟨RIFF_ID, 1036, RIFF_FMT⟩,
        ⟨FMT_ID, 16, 1, 2, 44100, 176400, 4, 16⟩, ⟨DATA_ID, 1000⟩⟩)
      = some ⟨⟨RIFF_ID, 1036, RIFF_FMT⟩,
        ⟨FMT_ID, 16, 1, 2, 44100, 176400, 4, 16⟩, ⟨DATA_ID, 1000⟩⟩ :=
  decode_encode _ (by decide)

/-- HEADER_SIZE computed structurally: the sum of the field widths of
the three chunks, exactly as the spec table lays them out. -/
def HEADER_SIZE : Nat :=
  (ID_LEN + 4 + ID_LEN)
    + (ID_LEN + 4 + 2 + 2 + 4 + 4 + 2 + 2)
    + (ID_LEN + 4)

/-- Claim C8: encode always produces exactly 44 bytes, and the
structural header size (the sum of the field widths) is 44, with no
padding or alignment gaps. -/
theorem encode_length_44 :
    (∀ h : wav_header, (encode h).length = 44) ∧ HEADER_SIZE = 44 := by
  constructor
  · intro h
    simp [encode, tagBytes, u32le, u16le]
  · decide

/-- create_file from wav-look.c, restricted to the header it writes:
when the target name is "sample.wav" the sample rate is halved (50%
playback speed); otherwise the header is written unchanged. -/
def create_file_header (name : String) (header : wav_header) : wav_header :=
  if name = "sample.wav" then
    { header with f := { header.f with sampleRate := header.f.sampleRate / 2 } }
  else header

/-- write_data from wav-util.c: read BLOCK-sized chunks until the input
reports zero bytes, writing each chunk with its actual length to the
modified file.  The resulting output stream contents. -/
def write_data_modified (input : List Nat) : List Nat :=
  if input = [] then []
  else input.take BLOCK ++ write_data_modified (input.drop BLOCK)
termination_by input.length
decreasing_by
  simp only [List.length_drop, BLOCK]
  rename_i hne
  have : input.length ≠ 0 := fun h0 => hne (List.eq_nil_of_length_eq_zero h0)
  omega

/-- Claim C5: pass-through copying is byte-exact for every payload,
including lengths that are not a multiple of the block size: the
short final block is written with its actual length, never padded. -/
theorem write_data_modified_id (input : List Nat) :
    write_data_modified input = input := by
  have H : ∀ n (l : List Nat), l.length ≤ n → write_data_modified l = l := by
    intro n
    induction n with
    | zero =>
        intro l hl
        have hnil : l = [] := by cases l <;> simp_all
        rw [write_data_modified]
        simp [hnil]
    | succ n ih =>
        intro l hl
        by_cases hz : l = []
        · rw [write_data_modified]; simp [hz]
        · have hlen : l.length ≠ 0 := fun h0 => hz (List.eq_nil_of_length_eq_zero h0)
          rw [write_data_modified]
          rw [if_neg hz, ih (l.drop BLOCK) (by simp [List.length_drop, BLOCK]; omega)]
          exact List.take_append_drop BLOCK l
  exact H input.length input le_rfl

/-- num_samples as computed in silence_section: the data chunk size
divided by the bytes-per-sample quotient bitsPerSample / 8. -/
def num_samples (header : wav_header) : Nat :=
  header.d.chunkSize / (header.f.bitsPerSample / BITS_PER_BYTE)

/-- dstart from silence_section: numSamples/2 + numSamples/D_START. -/
def dstart (header : wav_header) : Nat :=
  num_samples header / 2 + num_samples header / D_START

/-- dend from silence_section: numSamples/2 + numSamples/D_END. -/
def dend (header : wav_header) : Nat :=
  num_samples header / 2 + num_samples header / D_END

/-- The loop body of silence_section: walk the buffer with index i,
compute pos = block * BLOCK + i, and zero the byte when pos lies in
[dstart, dend]. -/
def silence_bytes (header : wav_header) (block i : Nat) : List Nat → List Nat
  | [] => []
  | b :: rest =>
      (if dstart header ≤ block * BLOCK + i ∧ block * BLOCK + i ≤ dend header
        then 0 else b) :: silence_bytes header block (i + 1) rest

/-- silence_section from wav-look.c, acting on the bytes of one block
(the C function walks a BLOCK-sized buffer; bytes past the short final
read are never written out, so the model acts on the live bytes). -/
def silence_section (data : List Nat) (block : Nat) (header : wav_header) :
    List Nat :=
  silence_bytes header block 0 data

theorem silence_bytes_length (header : wav_header) (block : Nat) :
    ∀ i l, (silence_bytes header block i l).length = l.length := by
  intro i l
  induction l generalizing i with
  | nil => rfl
  | cons b rest ih => simp [silence_bytes, ih]

theorem silence_bytes_getD (header : wav_header) (block : Nat) :
    ∀ l i p, p < l.length →
      (silence_bytes header block i l).getD p 0 =
        if dstart header ≤ block * BLOCK + i + p ∧
            block * BLOCK + i + p ≤ dend header
          then 0 else l.getD p 0 := by
  intro l
  induction l with
  | nil => intro i p hp; simp at hp
  | cons b rest ih =>
      intro i p hp
      cases p with
      | zero => simp [silence_bytes, List.getD]
      | succ p =>
          have hp' : p < rest.length := by simpa using hp
          simp only [silence_bytes, List.getD_cons_succ]
          rw [ih (i + 1) p hp']
          have : block * BLOCK + (i + 1) + p = block * BLOCK + i + (p + 1) := by omega
          rw [this]

/-- Claim C10: on any block, for any block index and any header with a
nonzero bytes-per-sample quotient, the silence transform preserves the
block length, writes each byte as either zero or the corresponding
input byte, and leaves every byte whose computed position pos =
block * BLOCK + i falls outside the closed window [dstart, dend]
exactly unchanged. -/
theorem silence_section_frame (data : List Nat) (block : Nat)
    (header : wav_header) (hq : header.f.bitsPerSample / BITS_PER_BYTE ≠ 0)
    (i : Nat) (hi : i < data.length) :
    (silence_section data block header).length = data.length ∧
      ((silence_section data block header).getD i 0 = 0 ∨
        (silence_section data block header).getD i 0 = data.getD i 0) ∧
      (¬ (dstart header ≤ block * BLOCK + i ∧
            block * BLOCK + i ≤ dend header) →
        (silence_section data block header).getD i 0 = data.getD i 0) := by
  have hg := silence_bytes_getD header block data 0 i hi
  rw [Nat.add_zero (block * BLOCK)] at hg
  refine ⟨silence_bytes_length header block 0 data, ?_, ?_⟩
  · unfold silence_section
    rw [hg]
    split_ifs <;> simp
  · intro hout
    unfold silence_section
    rw [hg, if_neg hout]

/-- Witness for C10 at a concrete block and header. -/
theorem silence_section_frame_witness :
    (silence_section [5, 6, 7] 1 ⟨⟨RIFF_ID, 1036, RIFF_FMT⟩,
        ⟨FMT_ID, 16, 1, 2, 44100, 176400, 4, 16⟩, ⟨DATA_ID, 1000⟩⟩).length = 3 ∧
      ((silence_section [5, 6, 7] 1 ⟨⟨RIFF_ID, 1036, RIFF_FMT⟩,
          ⟨FMT_ID, 16, 1, 2, 44100, 176400, 4, 16⟩, ⟨DATA_ID, 1000⟩⟩).getD 2 0 = 0 ∨
        (silence_section [5, 6, 7] 1 ⟨⟨RIFF_ID, 1036, RIFF_FMT⟩,
            ⟨FMT_ID, 16, 1, 2, 44100, 176400, 4, 16⟩, ⟨DATA_ID, 1000⟩⟩).getD 2 0 =
          ([5, 6, 7] : List Nat).getD 2 0) ∧
      (¬ (dstart ⟨⟨RIFF_ID, 1036, RIFF_FMT⟩,
            ⟨FMT_ID, 16, 1, 2, 44100, 176400, 4, 16⟩, ⟨DATA_ID, 1000⟩⟩ ≤ 1 * BLOCK + 2 ∧
          1 * BLOCK + 2 ≤ dend ⟨⟨RIFF_ID, 1036, RIFF_FMT⟩,
            ⟨FMT_ID, 16, 1, 2, 44100, 176400, 4, 16⟩, ⟨DATA_ID, 1000⟩⟩) →
        (silence_section [5, 6, 7] 1 ⟨⟨RIFF_ID, 1036, RIFF_FMT⟩,
            ⟨FMT_ID, 16, 1, 2, 44100, 176400, 4, 16⟩, ⟨DATA_ID, 1000⟩⟩).getD 2 0 =
          ([5, 6, 7] : List Nat).getD 2 0) :=
  silence_section_frame [5, 6, 7] 1 _ (by decide) 2 (by decide)

/-- Claim C9: when bitsPerSample is at least 8 the bytes-per-sample
divisor bitsPerSample / 8 in the num_samples computation is nonzero
(so the C division is well defined), yet validation alone does not
establish this: a header can pass verify_file with 0 violations while
its bytes-per-sample quotient is zero. -/
theorem num_samples_divisor_safe (h : wav_header)
    (hb : 8 ≤ h.f.bitsPerSample) :
    h.f.bitsPerSample / BITS_PER_BYTE ≠ 0 ∧
      num_samples h = h.d.chunkSize / (h.f.bitsPerSample / BITS_PER_BYTE) ∧
      ∃ h2 : wav_header, verify_file h2 = 0 ∧
        h2.f.bitsPerSample / BITS_PER_BYTE = 0 := by
  refine ⟨?_, rfl, ?_⟩
  · have : 1 ≤ h.f.bitsPerSample / 8 := (Nat.one_le_div_iff (by omega)).mpr hb
    simpa [BITS_PER_BYTE] using Nat.one_le_iff_ne_zero.mp this
  · refine ⟨⟨⟨RIFF_ID, 0, RIFF_FMT⟩, ⟨FMT_ID, 16, 1, 2, 44100, 176400, 4, 0⟩,
      ⟨DATA_ID, 1000⟩⟩, ?_, by decide⟩
    exact verify_file_good_tags 0 16 1 2 44100 176400 4 0 1000

/-- Witness for C9 at a concrete header with bitsPerSample = 16. -/
theorem num_samples_divisor_safe_witness :
    (16 : Nat) / BITS_PER_BYTE ≠ 0 ∧
      num_samples ⟨⟨RIFF_ID, 1036, RIFF_FMT⟩,
          ⟨FMT_ID, 16, 1, 2, 44100, 176400, 4, 16⟩, ⟨DATA_ID, 1000⟩⟩ =
        1000 / ((16 : Nat) / BITS_PER_BYTE) ∧
      ∃ h2 : wav_header, verify_file h2 = 0 ∧
        h2.f.bitsPerSample / BITS_PER_BYTE = 0 :=
  num_samples_divisor_safe ⟨⟨RIFF_ID, 1036, RIFF_FMT⟩,
    ⟨FMT_ID, 16, 1, 2, 44100, 176400, 4, 16⟩, ⟨DATA_ID, 1000⟩⟩ (by decide)

/-- The successive fread results of the read loop: BLOCK-sized chunks
of the input stream until it reports zero bytes, the final chunk
possibly short. -/
def chunks (input : List Nat) : List (List Nat) :=
  if input = [] then [] else input.take BLOCK :: chunks (input.drop BLOCK)
termination_by input.length
decreasing_by
  simp only [List.length_drop, BLOCK]
  rename_i hne
  have : input.length ≠ 0 := fun h0 => hne (List.eq_nil_of_length_eq_zero h0)
  omega

/-- The silence-transformed copies of a chunk list, numbering blocks
from num_blocks + 1 upward exactly as the write loop does. -/
def silence_chunks (header : wav_header) (num_blocks : Nat) :
    List (List Nat) → List (List Nat)
  | [] => []
  | c :: cs =>
      silence_section c (num_blocks + 1) header
        :: silence_chunks header (num_blocks + 1) cs

/-- A fatal short write: which output stream failed (0 = sample.wav,
1 = silence.wav), how many bytes fwrite was given and how many it
reported written. -/
structure short_write where
  stream : Nat
  expected : Nat
  written : Nat
deriving DecidableEq

/-- write_data from wav-look.c.  The input stream is a byte list read
in BLOCK-sized chunks; acc0 and acc1 say how many bytes the sample and
the silence stream accept on the fwrite call for each (1-based) block
number, the count actually written being the smaller of the request
and the acceptance.  A write below the request aborts the whole
operation at once (the C code calls exit), leaving both streams as
written so far; returns the outcome with the final contents of the
sample stream and of the silence stream. -/
def write_data_look (header : wav_header) (acc0 acc1 : Nat → Nat)
    (num_blocks : Nat) (input : List Nat) :
    Except short_write Unit × List Nat × List Nat :=
  if input = [] then (Except.ok (), [], [])
  else
    let blk := input.take BLOCK
    let w0 := min blk.length (acc0 (num_blocks + 1))
    if w0 ≠ blk.length then
      (Except.error ⟨0, blk.length, w0⟩, blk.take w0, [])
    else
      let tblk := silence_section blk (num_blocks + 1) header
      let w1 := min tblk.length (acc1 (num_blocks + 1))
      if w1 ≠ tblk.length then
        (Except.error ⟨1, tblk.length, w1⟩, blk, tblk.take w1)
      else
        let r := write_data_look header acc0 acc1 (num_blocks + 1)
          (input.drop BLOCK)
        (r.1, blk ++ r.2.1, tblk ++ r.2.2)
termination_by input.length
decreasing_by
  simp only [List.length_drop, BLOCK]
  rename_i hne
  have : input.length ≠ 0 := fun h0 => hne (List.eq_nil_of_length_eq_zero h0)
  omega

theorem silence_section_length (data : List Nat) (block : Nat)
    (header : wav_header) :
    (silence_section data block header).length = data.length :=
  silence_bytes_length header block 0 data

/-- With every write accepted in full, the copy loop succeeds, the
sample stream receives the input unchanged and the silence stream
receives the transformed chunks. -/
theorem write_data_look_ok (header : wav_header) (acc0 acc1 : Nat → Nat)
    (h0 : ∀ k, BLOCK ≤ acc0 k) (h1 : ∀ k, BLOCK ≤ acc1 k) :
    ∀ n (input : List Nat) (b : Nat), input.length ≤ n →
      write_data_look header acc0 acc1 b input =
        (Except.ok (), input,
          (silence_chunks header b (chunks input)).flatten) := by
  intro n
  induction n with
  | zero =>
      intro input b hl
      have hnil : input = [] := by cases input <;> simp_all
      rw [write_data_look, chunks]
      simp [hnil, silence_chunks]
  | succ n ih =>
      intro input b hl
      by_cases hz : input = []
      · rw [write_data_look, chunks]
        simp [hz, silence_chunks]
      · have hlen : input.length ≠ 0 :=
          fun hh => hz (List.eq_nil_of_length_eq_zero hh)
        have htk : (input.take BLOCK).length ≤ BLOCK := by
          simp [List.length_take]
        have hc0 : ¬ (min (input.take BLOCK).length (acc0 (b + 1)) ≠
            (input.take BLOCK).length) := by
          have := h0 (b + 1); omega
        have hc1 : ¬ (min (silence_section (input.take BLOCK) (b + 1)
              header).length (acc1 (b + 1)) ≠
            (silence_section (input.take BLOCK) (b + 1) header).length) := by
          have := h1 (b + 1)
          have hsl := silence_section_length (input.take BLOCK) (b + 1) header
          omega
        rw [write_data_look]
        rw [if_neg hz]
        simp only [if_neg hc0, if_neg hc1]
        rw [ih (input.drop BLOCK) (b + 1)
          (by simp only [List.length_drop, BLOCK]; omega)]
        conv_rhs => rw [chunks, if_neg hz]
        simp [silence_chunks, List.take_append_drop]

/-- A concrete 44.1 kHz, stereo, 16-bit header used by witnesses. -/
def demo_header : wav_header :=
  ⟨⟨RIFF_ID, 1036, RIFF_FMT⟩, ⟨FMT_ID, 16, 1, 2, 44100, 176400, 4, 16⟩,
    ⟨DATA_ID, 1000⟩⟩

/-- Claim C6: with sampleRate 44100, the header created for sample.wav
has sampleRate 22050, every other field unchanged, and the payload the
sample stream receives is the original payload. -/
theorem create_file_sample_halves (h : wav_header)
    (hs : h.f.sampleRate = 44100) :
    (create_file_header "sample.wav" h).f.sampleRate = 22050 ∧
      (create_file_header "sample.wav" h).r = h.r ∧
      (create_file_header "sample.wav" h).d = h.d ∧
      (create_file_header "sample.wav" h).f.chunkID = h.f.chunkID ∧
      (create_file_header "sample.wav" h).f.chunkSize = h.f.chunkSize ∧
      (create_file_header "sample.wav" h).f.audioFormat = h.f.audioFormat ∧
      (create_file_header "sample.wav" h).f.numChannels = h.f.numChannels ∧
      (create_file_header "sample.wav" h).f.byteRate = h.f.byteRate ∧
      (create_file_header "sample.wav" h).f.blockAlign = h.f.blockAlign ∧
      (create_file_header "sample.wav" h).f.bitsPerSample =
        h.f.bitsPerSample ∧
      ∀ input : List Nat,
        (write_data_look h (fun k => BLOCK) (fun k => BLOCK) 0
          input).2.1 = input := by
  simp only [create_file_header, if_pos rfl]
  refine ⟨?_, rfl, rfl, rfl, rfl, rfl, rfl, rfl, rfl, rfl, ?_⟩
  · simp [hs]
  · intro input
    rw [write_data_look_ok h _ _ (fun k => le_refl BLOCK)
      (fun k => le_refl BLOCK) input.length input 0 le_rfl]

/-- Witness for C6: the concrete header and a 3-byte payload. -/
theorem create_file_sample_halves_witness :
    (create_file_header "sample.wav" demo_header).f.sampleRate = 22050 ∧
      (write_data_look demo_header (fun k => BLOCK) (fun k => BLOCK) 0
        [9, 9, 9]).2.1 = [9, 9, 9] :=
  ⟨(create_file_sample_halves demo_header rfl).1,
    (create_file_sample_halves demo_header rfl).2.2.2.2.2.2.2.2.2.2 [9, 9, 9]⟩

/-- Full characterization of a failing run of the write loop, for any
starting block number: the error records the short count, the sample
stream holds the blocks before the failing one (plus the bytes the
failing write managed to transfer, when the sample stream failed), the silence
stream holds only the transformed blocks before the failing one, and
no later block was processed. -/
theorem write_data_look_error_spec (header : wav_header)
    (acc0 acc1 : Nat → Nat) :
    ∀ m (input : List Nat) (b : Nat) (e : short_write) (sout zout : List Nat),
      input.length ≤ m →
      write_data_look header acc0 acc1 b input =
        (Except.error e, sout, zout) →
      e.written < e.expected ∧
      ∃ n, n < (chunks input).length ∧
        e.expected = ((chunks input).getD n []).length ∧
        (e.stream = 0 ∨ e.stream = 1) ∧
        (e.stream = 0 →
          sout = ((chunks input).take n).flatten
            ++ ((chunks input).getD n []).take e.written ∧
          zout = (silence_chunks header b ((chunks input).take n)).flatten) ∧
        (e.stream = 1 →
          sout = ((chunks input).take (n + 1)).flatten ∧
          zout = (silence_chunks header b ((chunks input).take n)).flatten
            ++ (silence_section ((chunks input).getD n []) (b + n + 1)
                header).take e.written) := by
  intro m
  induction m with
  | zero =>
      intro input b e sout zout hl hrun
      have hnil : input = [] := by cases input <;> simp_all
      rw [write_data_look] at hrun
      simp [hnil] at hrun
  | succ m ih =>
      intro input b e sout zout hl hrun
      by_cases hz : input = []
      · rw [write_data_look] at hrun
        simp [hz] at hrun
      · have hlen : input.length ≠ 0 :=
          fun hh => hz (List.eq_nil_of_length_eq_zero hh)
        have htk : (input.take BLOCK).length ≤ BLOCK := by
          simp [List.length_take]
        have hch : chunks input = input.take BLOCK :: chunks (input.drop BLOCK) := by
          rw [chunks, if_neg hz]
        rw [write_data_look, if_neg hz] at hrun
        by_cases hc0 : min (input.take BLOCK).length (acc0 (b + 1)) ≠
            (input.take BLOCK).length
        · rw [if_pos hc0] at hrun
          simp only [Prod.mk.injEq, Except.error.injEq] at hrun
          obtain ⟨he, hsou, hzou⟩ := hrun
          subst he hsou hzou
          refine ⟨by simp only []; omega, 0, ?_, ?_, Or.inl rfl, ?_, ?_⟩
          · rw [hch]; simp
          · rw [hch]; simp
          · intro hh
            rw [hch]
            simp [silence_chunks]
          · intro hh
            simp at hh
        · rw [if_neg hc0] at hrun
          by_cases hc1 : min (silence_section (input.take BLOCK) (b + 1)
                header).length (acc1 (b + 1)) ≠
              (silence_section (input.take BLOCK) (b + 1) header).length
          · rw [if_pos hc1] at hrun
            simp only [Prod.mk.injEq, Except.error.injEq] at hrun
            obtain ⟨he, hsou, hzou⟩ := hrun
            subst he hsou hzou
            refine ⟨by simp only []; omega, 0, ?_, ?_, Or.inr rfl, ?_, ?_⟩
            · rw [hch]; simp
            · rw [hch]
              simp [silence_section_length]
            · intro hh
              simp at hh
            · intro hh
              rw [hch]
              simp [silence_chunks]
          · rw [if_neg hc1] at hrun
            rcases hwr : write_data_look header acc0 acc1 (b + 1)
                (input.drop BLOCK) with ⟨r1, rs, rz⟩
            rw [hwr] at hrun
            simp only [Prod.mk.injEq] at hrun
            obtain ⟨hr1, hsou, hzou⟩ := hrun
            rw [hr1] at hwr
            obtain ⟨hwlt, n, hn, hexp, hstream, hs0, hs1⟩ :=
              ih (input.drop BLOCK) (b + 1) e rs rz
                (by simp only [List.length_drop, BLOCK]; omega) hwr
            refine ⟨hwlt, n + 1, ?_, ?_, hstream, ?_, ?_⟩
            · rw [hch]; simpa using hn
            · rw [hch]; simpa using hexp
            · intro hh
              obtain ⟨hrs, hrz⟩ := hs0 hh
              constructor
              · rw [← hsou, hrs, hch]
                simp [List.append_assoc]
              · rw [← hzou, hrz, hch]
                simp [silence_chunks]
            · intro hh
              obtain ⟨hrs, hrz⟩ := hs1 hh
              constructor
              · rw [← hsou, hrs, hch]
                simp
              · rw [← hzou, hrz, hch]
                have hbn : b + 1 + n + 1 = b + (n + 1) + 1 := by omega
                simp [silence_chunks, hbn, List.append_assoc]

/-- Claim C7: when an output stream accepts fewer bytes than requested
during a block write, the copy fails at that block with an error
naming the stream and the short count; the sample stream holds only
the earlier blocks (plus the bytes the failing write managed to
transfer, when it failed), the silence stream never receives a block the sample
stream did not, and no subsequent block is processed. -/
theorem short_write_aborts (header : wav_header) (acc0 acc1 : Nat → Nat)
    (input : List Nat) (e : short_write) (sout zout : List Nat)
    (hrun : write_data_look header acc0 acc1 0 input =
      (Except.error e, sout, zout)) :
    e.written < e.expected ∧
    ∃ n, n < (chunks input).length ∧
      e.expected = ((chunks input).getD n []).length ∧
      (e.stream = 0 ∨ e.stream = 1) ∧
      (e.stream = 0 →
        sout = ((chunks input).take n).flatten
          ++ ((chunks input).getD n []).take e.written ∧
        zout = (silence_chunks header 0 ((chunks input).take n)).flatten) ∧
      (e.stream = 1 →
        sout = ((chunks input).take (n + 1)).flatten ∧
        zout = (silence_chunks header 0 ((chunks input).take n)).flatten
          ++ (silence_section ((chunks input).getD n []) (n + 1)
              header).take e.written) := by
  have hspec := write_data_look_error_spec header acc0 acc1 input.length
    input 0 e sout zout le_rfl hrun
  simpa using hspec

/-- A concrete 10-byte payload used by the C7 witness. -/
def ten_sevens : List Nat := [7, 7, 7, 7, 7, 7, 7, 7, 7, 7]

/-- Witness for C7: a sample stream accepting only 3 bytes per write
makes the run abort on block 1 with the short count reported. -/
theorem short_write_aborts_witness :
    (3 : Nat) < 10 ∧
    ∃ n, n < (chunks ten_sevens).length ∧
      (10 : Nat) = ((chunks ten_sevens).getD n []).length ∧
      ((0 : Nat) = 0 ∨ (0 : Nat) = 1) ∧
      ((0 : Nat) = 0 →
        [7, 7, 7] = ((chunks ten_sevens).take n).flatten
          ++ ((chunks ten_sevens).getD n []).take 3 ∧
        ([] : List Nat) =
          (silence_chunks demo_header 0 ((chunks ten_sevens).take n)).flatten) ∧
      ((0 : Nat) = 1 →
        [7, 7, 7] = ((chunks ten_sevens).take (n + 1)).flatten ∧
        ([] : List Nat) =
          (silence_chunks demo_header 0 ((chunks ten_sevens).take n)).flatten
            ++ (silence_section ((chunks ten_sevens).getD n []) (n + 1)
                demo_header).take 3) :=
  short_write_aborts demo_header (fun k => 3) (fun k => BLOCK) ten_sevens
    ⟨0, 10, 3⟩ [7, 7, 7] []
    (by rw [write_data_look]; norm_num [BLOCK, ten_sevens]; simp)

/-- Position characterization of the silence output: the byte at
payload offset p is zeroed exactly when the position the loop computes
for it, (b + 1 + p / BLOCK) * BLOCK + p % BLOCK = b * BLOCK + p + BLOCK,
lies in the window; every other byte is passed through. -/
theorem silence_output_getD (header : wav_header) :
    ∀ m (input : List Nat) (b p : Nat), input.length ≤ m →
      p < input.length →
      ((silence_chunks header b (chunks input)).flatten).getD p 0 =
        if dstart header ≤ b * BLOCK + p + BLOCK ∧
            b * BLOCK + p + BLOCK ≤ dend header
          then 0 else input.getD p 0 := by
  intro m
  induction m with
  | zero =>
      intro input b p hl hp
      omega
  | succ m ih =>
      intro input b p hl hp
      have hz : input ≠ [] := by
        intro hh; rw [hh] at hp; simp at hp
      have hch : chunks input =
          input.take BLOCK :: chunks (input.drop BLOCK) := by
        rw [chunks, if_neg hz]
      rw [hch]
      simp only [silence_chunks, List.flatten_cons]
      by_cases hcase : p < (input.take BLOCK).length
      · rw [List.getD_append _ _ 0 p (by rwa [silence_section_length])]
        have hg := silence_bytes_getD header (b + 1) (input.take BLOCK) 0 p hcase
        rw [Nat.add_zero ((b + 1) * BLOCK)] at hg
        have hpos : (b + 1) * BLOCK + p = b * BLOCK + p + BLOCK := by ring
        rw [hpos] at hg
        simp only [silence_section]
        rw [hg]
        have hpb : p < BLOCK := by
          have := List.length_take BLOCK input
          omega
        simp [List.getD_eq_getElem?_getD, List.getElem?_take, hpb]
      · have hmin : (input.take BLOCK).length = min BLOCK input.length := by
          simp [List.length_take]
        have hble : BLOCK ≤ p := by omega
        have htkb : (input.take BLOCK).length = BLOCK := by omega
        rw [List.getD_append_right _ _ 0 p (by rw [silence_section_length]; omega)]
        rw [silence_section_length, htkb]
        have hB : BLOCK = 4096 := rfl
        rw [ih (input.drop BLOCK) (b + 1) (p - BLOCK)
          (by simp only [List.length_drop]; omega)
          (by simp only [List.length_drop]; omega)]
        have hx : (b + 1) * BLOCK = b * BLOCK + BLOCK := by ring
        have hpos : (b + 1) * BLOCK + (p - BLOCK) + BLOCK =
            b * BLOCK + p + BLOCK := by rw [hx]; omega
        rw [hpos]
        have hdg : (input.drop BLOCK).getD (p - BLOCK) 0 = input.getD p 0 := by
          have hpb : BLOCK + (p - BLOCK) = p := by omega
          simp [List.getD_eq_getElem?_getD, List.getElem?_drop, hpb]
        rw [hdg]

/-- Claim C1 as the code computes it: because the write loop numbers
blocks from 1, the position compared against the window overshoots the
true payload offset by BLOCK bytes, so for the scenario header
(dataChunkSize 1,000,000, bitsPerSample 16, window [255000, 266666])
the bytes zeroed in the silence output are exactly the payload offsets
in [250904, 262570]; every other byte, and the whole pass-through
output, is unchanged. -/
theorem silence_window_scenario (h : wav_header)
    (hds : h.d.chunkSize = 1000000) (hbps : h.f.bitsPerSample = 16)
    (input : List Nat) (p : Nat) (hp : p < input.length) :
    (write_data_look h (fun k => BLOCK) (fun k => BLOCK) 0 input).1 =
        Except.ok () ∧
      (write_data_look h (fun k => BLOCK) (fun k => BLOCK) 0 input).2.1 =
        input ∧
      (write_data_look h (fun k => BLOCK) (fun k => BLOCK) 0
          input).2.2.getD p 0 =
        if 250904 ≤ p ∧ p ≤ 262570 then 0 else input.getD p 0 := by
  rw [write_data_look_ok h _ _ (fun k => le_refl BLOCK)
    (fun k => le_refl BLOCK) input.length input 0 le_rfl]
  refine ⟨rfl, rfl, ?_⟩
  show ((silence_chunks h 0 (chunks input)).flatten).getD p 0 = _
  rw [silence_output_getD h input.length input 0 p le_rfl hp]
  have hns : num_samples h = 500000 := by
    unfold num_samples
    rw [hds, hbps]
    decide
  have hdst : dstart h = 255000 := by
    unfold dstart
    rw [hns]
    decide
  have hden : dend h = 266666 := by
    unfold dend
    rw [hns]
    decide
  rw [hdst, hden]
  simp only [Nat.zero_mul, Nat.zero_add]
  by_cases hpp : 250904 ≤ p ∧ p ≤ 262570
  · rw [if_pos (by simp only [BLOCK]; omega), if_pos hpp]
  · rw [if_neg (by simp only [BLOCK]; omega), if_neg hpp]

/-- The scenario header of the silence-window test: dataChunkSize
1,000,000 and bitsPerSample 16. -/
def window_header : wav_header :=
  ⟨⟨RIFF_ID, 1000036, RIFF_FMT⟩, ⟨FMT_ID, 16, 1, 2, 44100, 176400, 4, 16⟩,
    ⟨DATA_ID, 1000000⟩⟩

/-- Counterexample to claim C1 as stated: the claim requires the byte
at payload offset 254999 to be unchanged in both outputs, but on an
all-ones payload the silence output zeroes it (the loop compares
254999 + BLOCK = 259095, which is inside [255000, 266666]). -/
theorem silence_window_claim_counterexample :
    (List.replicate 1000000 (1 : Nat)).getD 254999 0 = 1 ∧
      (write_data_look window_header (fun k => BLOCK) (fun k => BLOCK) 0
          (List.replicate 1000000 1)).2.2.getD 254999 0 = 0 := by
  constructor
  · rw [List.getD_eq_getElem?_getD, List.getElem?_replicate]
    norm_num
  · rw [write_data_look_ok window_header _ _ (fun k => le_refl BLOCK)
      (fun k => le_refl BLOCK) (List.replicate 1000000 1).length _ 0 le_rfl]
    show ((silence_chunks window_header 0
        (chunks (List.replicate 1000000 1))).flatten).getD 254999 0 = 0
    rw [silence_output_getD window_header (List.replicate 1000000 1).length
      (List.replicate 1000000 1) 0 254999 le_rfl
      (by rw [List.length_replicate]; norm_num)]
    have hdst : dstart window_header = 255000 := by decide
    have hden : dend window_header = 266666 := by decide
    rw [hdst, hden]
    rw [if_pos (by simp only [BLOCK]; omega)]

/-- Witness for the amended C1 at offset 250904 of a 300,000-byte
all-ones payload. -/
theorem silence_window_scenario_witness :
    (write_data_look window_header (fun k => BLOCK) (fun k => BLOCK) 0
        (List.replicate 300000 1)).1 = Except.ok () ∧
      (write_data_look window_header (fun k => BLOCK) (fun k => BLOCK) 0
          (List.replicate 300000 1)).2.1 = List.replicate 300000 1 ∧
      (write_data_look window_header (fun k => BLOCK) (fun k => BLOCK) 0
          (List.replicate 300000 1)).2.2.getD 250904 0 =
        if 250904 ≤ 250904 ∧ 250904 ≤ 262570 then 0
          else (List.replicate 300000 (1 : Nat)).getD 250904 0 :=
  silence_window_scenario window_header rfl rfl (List.replicate 300000 1)
    250904 (by rw [List.length_replicate]; norm_num)
